import Mathlib

/-!
A verification development for the CHERRY self-modification subsystem
(SchemaMigration, ComponentManager, ComponentGenerator, ModificationDetector
and the orchestration functions of the server).

The JavaScript sources are shallowly embedded as pure Lean functions.
Filesystem-backed state (the migrations log `migrations.json`, the component
registry `active.json`, the component files directory and the backups
directory) is modelled as explicit in-memory state threaded through the
operations; `Date.now()` / `new Date().toISOString()` timestamps are modelled
as natural numbers supplied by the caller; SQLite is modelled by its observable
behaviour (a table is a list of physical column names; `PRAGMA table_info` is
an association-list lookup; `ALTER TABLE ... ADD COLUMN` appends a column and
fails when the table does not exist).  JavaScript exceptions are modelled with
`Except String`.  User-facing message strings that carry no control-flow
information are elided from results; `reason` tags and success flags are kept
verbatim.
-/

deriving instance DecidableEq for Except

namespace Cherry

/-! ## Generic string helpers (JS primitives used by the sources) -/

/-- JS `String.prototype.includes`, on char lists: `pat` occurs somewhere in `s`. -/
def listContainsSub : List Char → List Char → Bool
  | [], p => p.isEmpty
  | c :: r, p => p.isPrefixOf (c :: r) || listContainsSub r p

/-- JS `String.prototype.includes` (case-sensitive substring test). -/
def strContains (s pat : String) : Bool :=
  listContainsSub s.toList pat.toList

/-- JS `String.prototype.trim` (whitespace stripped from both ends). -/
def jsTrim (s : String) : String :=
  String.mk (((s.toList.dropWhile Char.isWhitespace).reverse.dropWhile Char.isWhitespace).reverse)

/-- JS `String.prototype.startsWith`. -/
def jsStartsWith (s pat : String) : Bool :=
  pat.toList.isPrefixOf s.toList

/-- JS `String.prototype.endsWith`. -/
def jsEndsWith (s pat : String) : Bool :=
  pat.toList.reverse.isPrefixOf s.toList.reverse

/-- Split on newline characters (JS `split("\n")`). -/
def splitLinesAux : List Char → List Char → List (List Char)
  | acc, [] => [acc.reverse]
  | acc, c :: r => if c == '\n' then acc.reverse :: splitLinesAux [] r else splitLinesAux (c :: acc) r

/-- Rejoin lines with newline characters (JS `join("\n")`). -/
def joinLines : List (List Char) → List Char
  | [] => []
  | [l] => l
  | l :: ls => l ++ '\n' :: joinLines ls

/-! ## Identifier Deriver (ModificationDetector.js lines 122-162)

`metricToFieldName`, `metricToComponentName` and `inferDataType`.
JS `toLowerCase`/`toUpperCase` is modelled by `Char.toLower`/`Char.toUpper`
(they agree on ASCII, which is all the regexes below distinguish). -/

/-- A character that the regex class `[a-z0-9]` accepts (after lower-casing). -/
def isFieldChar (c : Char) : Bool :=
  ('a' ≤ c && c ≤ 'z') || ('0' ≤ c && c ≤ '9')

/-- The replacement `replace(/[^a-z0-9]+/g, "_")`: every maximal run of characters outside
`[a-z0-9]` becomes a single underscore. -/
def collapseRuns : List Char → List Char
  | [] => []
  | [c] => if isFieldChar c then [c] else ['_']
  | c :: d :: rest =>
    if isFieldChar c then c :: collapseRuns (d :: rest)
    else if isFieldChar d then '_' :: collapseRuns (d :: rest)
    else collapseRuns (d :: rest)

/-- The replacement `replace(/^_+|_+$/g, "")`: strip leading and trailing underscore runs. -/
def stripUnderscores (l : List Char) : List Char :=
  ((l.dropWhile (· == '_')).reverse.dropWhile (· == '_')).reverse

/-- ModificationDetector.js `metricToFieldName`: lower-case, collapse
non-alphanumeric runs to `_`, strip edge underscores, truncate to 50. -/
def metricToFieldName (metricName : String) : String :=
  String.mk ((stripUnderscores (collapseRuns (metricName.toList.map Char.toLower))).take 50)

/-- ModificationDetector.js `metricToComponentName`: lower-case, split on
non-alphanumeric runs, capitalize each segment, join.  (The final
`replace(/^[^A-Z]/, toUpperCase)` is the identity here because each segment
already starts with an upper-cased character and upper-casing a digit is the
identity.)  Implemented char-wise: the first `[a-z0-9]` character of each run
is upper-cased, separator characters are dropped. -/
def pascalize : Bool → List Char → List Char
  | _, [] => []
  | cap, c :: r =>
    if isFieldChar c then (if cap then c.toUpper else c) :: pascalize false r
    else pascalize true r

def metricToComponentName (metricName : String) : String :=
  String.mk (pascalize true (metricName.toList.map Char.toLower))

/-- ModificationDetector.js `inferDataType`: keyword heuristics. -/
def inferDataType (metricName : String) : String :=
  let lower := String.mk (metricName.toList.map Char.toLower)
  if strContains lower "mood" || strContains lower "stress" || strContains lower "level" then
    "INTEGER"
  else if strContains lower "note" || strContains lower "comment" || strContains lower "description" then
    "TEXT"
  else if strContains lower "weight" || strContains lower "temp" || strContains lower "rate" then
    "REAL"
  else if strContains lower "done" || strContains lower "completed" || strContains lower "check" then
    "BOOLEAN"
  else
    "INTEGER"

/-! ## Schema Evolution Engine (SchemaMigration) -/

/-- The physical database schema: table name to its list of physical column
names, in column order (the part of `cherry.db` the engine observes through
`PRAGMA table_info`). -/
abbrev Tables := List (String × List String)

/-- One entry of `migrations.json`: the migration object passed to
`logMigration` together with the `executed_at` stamp it adds. -/
structure Migration where
  id : String
  mtype : String
  table : String
  field : String
  dataType : Option String
  sql : Option String
  note : Option String
  executedAt : Nat
deriving DecidableEq, Repr

/-- The `migrations.json` document: `{ migrations: [...], last_migration }`. -/
structure MigLog where
  migrations : List Migration
  lastMigration : Option String
deriving DecidableEq, Repr

/-- SchemaMigration.logMigration: append the record (with its `executed_at`
already filled in by the caller) and update `last_migration`. -/
def logMigration (log : MigLog) (m : Migration) : MigLog :=
  { migrations := log.migrations ++ [m], lastMigration := some m.id }

/-- SchemaMigration.validateFieldName reserved-word list. -/
def reservedWords : List String :=
  ["select", "insert", "update", "delete", "drop", "table", "from", "where"]

/-- An ASCII letter (what `[a-z]` with the `i` flag accepts). -/
def isAsciiLetter (c : Char) : Bool :=
  'a' ≤ c.toLower && c.toLower ≤ 'z'

/-- The regex `/^[a-z_][a-z0-9_]*$/i`: first char a letter or underscore, rest
letters, digits or underscores (case-insensitive). -/
def matchesFieldNamePattern (s : String) : Bool :=
  match s.toList with
  | [] => false
  | c :: rest =>
    (isAsciiLetter c || c == '_')
      && rest.all (fun d => isAsciiLetter d || ('0' ≤ d && d ≤ '9') || d == '_')

/-- SchemaMigration.validateFieldName: throws on reserved words and on names
that fail the identifier regex. -/
def validateFieldName (fieldName : String) : Except String Unit :=
  if reservedWords.contains (String.mk (fieldName.toList.map Char.toLower)) then
    .error ("\"" ++ fieldName ++ "\" is a reserved SQL keyword")
  else if !matchesFieldNamePattern fieldName then
    .error ("\"" ++ fieldName ++ "\" is not a valid field name")
  else
    .ok ()

/-- SchemaMigration.validateDataType. -/
def validateDataType (dataType : String) : Except String Unit :=
  if ["TEXT", "INTEGER", "REAL", "BOOLEAN", "DATETIME"].contains
      (String.mk (dataType.toList.map Char.toUpper)) then
    .ok ()
  else
    .error ("\"" ++ dataType ++ "\" is not a valid data type")

/-- SchemaMigration.fieldExists: `PRAGMA table_info(table)` then
`columns.some(col => col.name === field)`; a failing PRAGMA (missing table)
resolves to `false`. -/
def fieldExists (tables : Tables) (table field : String) : Bool :=
  match List.lookup table tables with
  | none => false
  | some cols => cols.any (fun c => c == field)

/-- Replace the column list of `table` (the effect of a successful
`ALTER TABLE` on the association list). -/
def setTable : Tables → String → List String → Tables
  | [], _, _ => []
  | q :: rest, table, cols =>
    if q.1 == table then (q.1, cols) :: setTable rest table cols
    else q :: setTable rest table cols

/-- Outcome of `addField` (the resolved JS object, minus message text). -/
inductive AddFieldOutcome where
  | added (field table : String)
  | alreadyExists
  | sqlError (msg : String)
deriving DecidableEq, Repr

/-- The SQL string `addField` builds and logs. -/
def addFieldSql (table field dataType : String) (defaultValue : Option String) : String :=
  let base := "ALTER TABLE " ++ table ++ " ADD COLUMN " ++ field ++ " " ++ dataType
  match defaultValue with
  | none => base
  | some v => base ++ " DEFAULT " ++ v

/-- The migration record `addField` logs on success
(`id: add_table_field_now`, `type: add_field`). -/
def addFieldMigration (table field dataType : String) (defaultValue : Option String)
    (now : Nat) : Migration :=
  { id := "add_" ++ table ++ "_" ++ field ++ "_" ++ toString now
    mtype := "add_field"
    table := table
    field := field
    dataType := some dataType
    sql := some (addFieldSql table field dataType defaultValue)
    note := none
    executedAt := now }

/-- SchemaMigration.addField: validate, check existence (`already_exists` is a
reported outcome, not an error), run `ALTER TABLE` (fails when the table is
missing), then log the migration. -/
def addField (tables : Tables) (log : MigLog) (table field dataType : String)
    (defaultValue : Option String) (now : Nat) :
    Except String (AddFieldOutcome × Tables × MigLog) :=
  match validateFieldName field with
  | .error e => .error e
  | .ok _ =>
    match validateDataType dataType with
    | .error e => .error e
    | .ok _ =>
      if fieldExists tables table field then
        .ok (.alreadyExists, tables, log)
      else
        match List.lookup table tables with
        | none => .ok (.sqlError "SQLITE_ERROR: no such table", tables, log)
        | some cols =>
          .ok (.added field table,
               setTable tables table (cols ++ [field]),
               logMigration log (addFieldMigration table field dataType defaultValue now))

/-- Outcome of `removeField`. -/
inductive RemoveFieldOutcome where
  | softDeleted (field table : String)
  | notFound
  | hardDeleteNotSupported
deriving DecidableEq, Repr

/-- The migration record the soft-delete path logs
(`id: remove_table_field_now`, `type: soft_delete_field`). -/
def softDeleteMigration (table field : String) (now : Nat) : Migration :=
  { id := "remove_" ++ table ++ "_" ++ field ++ "_" ++ toString now
    mtype := "soft_delete_field"
    table := table
    field := field
    dataType := none
    sql := none
    note := some "Field hidden from UI but data preserved"
    executedAt := now }

/-- SchemaMigration.removeField: validate, check existence, then either log a
soft-delete record (physical schema untouched) or report that hard deletion is
not supported (no code path issues any schema-altering SQL). -/
def removeField (tables : Tables) (log : MigLog) (table field : String)
    (softDelete : Bool) (now : Nat) :
    Except String (RemoveFieldOutcome × Tables × MigLog) :=
  match validateFieldName field with
  | .error e => .error e
  | .ok _ =>
    if !fieldExists tables table field then
      .ok (.notFound, tables, log)
    else if softDelete then
      .ok (.softDeleted field table, tables, logMigration log (softDeleteMigration table field now))
    else
      .ok (.hardDeleteNotSupported, tables, log)

/-- SchemaMigration.getActiveFields: the physical columns of `table` minus
every field that has a `soft_delete_field` record for this table in the log
(simple exclusion over the full log). -/
def getActiveFields (tables : Tables) (log : MigLog) (table : String) : List String :=
  let softDeleted :=
    (log.migrations.filter (fun m => m.mtype == "soft_delete_field" && m.table == table)).map
      (fun m => m.field)
  match List.lookup table tables with
  | none => []
  | some cols => cols.filter (fun n => !softDeleted.contains n)

/-! ## Component Registry (ComponentManager) -/

/-- What callers pass to `registerComponent` (`active.json` entry minus the
`registered_at` stamp the manager adds).  `field` is absent for charts. -/
structure ComponentInfo where
  name : String
  ctype : String
  field : Option String
  description : String
  path : String
  location : String
  active : Bool
deriving DecidableEq, Repr

/-- An entry of `active.json.components`. -/
structure RegisteredComponent where
  name : String
  ctype : String
  field : Option String
  description : String
  path : String
  location : String
  active : Bool
  registeredAt : Nat
deriving DecidableEq, Repr

/-- The `active.json` document: `{ components: [...], last_modified }`
(the constant `version` field is elided). -/
structure Registry where
  components : List RegisteredComponent
  lastModified : Option Nat
deriving DecidableEq, Repr

/-- ComponentManager.registerComponent: duplicate name is a `false` no-op that
leaves the document untouched; otherwise push the record with `registered_at`,
bump `last_modified`, return `true`. -/
def registerComponent (reg : Registry) (info : ComponentInfo) (now : Nat) :
    Bool × Registry :=
  match reg.components.find? (fun c => c.name == info.name) with
  | some _ => (false, reg)
  | none =>
    (true,
     { components := reg.components ++
         [{ name := info.name, ctype := info.ctype, field := info.field,
            description := info.description, path := info.path,
            location := info.location, active := info.active, registeredAt := now }]
       lastModified := some now })

/-- ComponentManager.unregisterComponent: remove the first entry with this name
(`findIndex` + `splice(index, 1)`), bump `last_modified`; `false` no-op when
absent. -/
def unregisterComponent (reg : Registry) (componentName : String) (now : Nat) :
    Bool × Registry :=
  match reg.components.findIdx? (fun c => c.name == componentName) with
  | none => (false, reg)
  | some i =>
    (true, { components := reg.components.eraseIdx i, lastModified := some now })

/-- The component files directory, modelled as path-to-body pairs. -/
abbrev FileStore := List (String × String)

def componentsDir : String := "/mnt/user-data/components/custom"

def componentFilePath (name : String) : String :=
  componentsDir ++ "/" ++ name ++ ".jsx"

/-- JS `fs.writeFile`: overwrite if present, create otherwise. -/
def writeFileStore (files : FileStore) (path body : String) : FileStore :=
  if files.any (fun p => p.1 == path) then
    files.map (fun p => if p.1 == path then (p.1, body) else p)
  else
    files ++ [(path, body)]

/-- ComponentManager.saveComponent: write `name.jsx`, return its path. -/
def saveComponent (files : FileStore) (name code : String) : String × FileStore :=
  (componentFilePath name, writeFileStore files (componentFilePath name) code)

/-- ComponentManager.deleteComponent: `unlink` the file then unregister; a
missing file makes `unlink` throw, which is caught and returns `false`
without unregistering. -/
def deleteComponent (files : FileStore) (reg : Registry) (name : String) (now : Nat) :
    Bool × FileStore × Registry :=
  if files.any (fun p => p.1 == componentFilePath name) then
    let files' := files.filter (fun p => !(p.1 == componentFilePath name))
    let reg' := (unregisterComponent reg name now).2
    (true, files', reg')
  else
    (false, files, reg)

/-! ## Backup Manager (ComponentManager.createBackup)

`createBackup` copies `cherry.db`, the component files and `active.json` into a
timestamped backup directory.  The migrations log is not part of a backup.
`restoreBackup` exists in the source but is never called by the server. -/

structure Backup where
  db : Tables
  files : FileStore
  registryDoc : Registry
deriving DecidableEq, Repr

/-! ## Artifact Generator (ComponentGenerator.generateComponent)

The external text-generation oracle is modelled by its response,
`oracleText : Option String` (`none` for an API failure).  The validation gate
is the code after the API call: trim, strip markdown fences, and require the
body to start with `export default function`; any violation (or API failure)
is caught and reported as an unsuccessful generation. -/

/-- The opening-fence regex replacement applied per line
(the alternatives of the group, longest first, are mutually exclusive). -/
def stripFenceOpenLine (line : List Char) : List Char :=
  if "```javascript".toList.isPrefixOf line then line.drop 13
  else if "```jsx".toList.isPrefixOf line then line.drop 6
  else if "```js".toList.isPrefixOf line then line.drop 5
  else if "```".toList.isPrefixOf line then line.drop 3
  else line

/-- The closing-fence regex replacement applied per line. -/
def stripFenceCloseLine (line : List Char) : List Char :=
  if "```".toList.isPrefixOf line.reverse then (line.reverse.drop 3).reverse else line

/-- Both fence replacements over every line. -/
def stripCodeFences (s : String) : String :=
  String.mk (joinLines ((splitLinesAux [] s.toList).map (fun l => stripFenceCloseLine (stripFenceOpenLine l))))

/-- ComponentGenerator.generateComponent, reduced to its validation gate:
`some code` mirrors `{success: true, code}`, `none` mirrors `{success: false}`
(API failure or a body that does not start with `export default function`). -/
def generateComponent (oracleText : Option String) : Option String :=
  match oracleText with
  | none => none
  | some t =>
    let code := stripCodeFences (jsTrim t)
    if jsStartsWith code "export default function" then some code else none

/-! ## Modification Orchestrator (server self-modification processor)

`addMetricTracker`, `removeMetricTracker`, `addChart` and
`undoLastModification`.  A thrown JS error is modelled as `Except.error`; the
route handlers catch it and keep the (already mutated) global state, so every
transaction returns its final state alongside the outcome.  No code path of
the server calls `restoreBackup`. -/

/-- The whole mutable world the orchestrator touches: `cherry.db` schema, the
migrations log, `active.json`, the component files and the backups directory. -/
structure SysState where
  tables : Tables
  migLog : MigLog
  registry : Registry
  files : FileStore
  backups : List Backup
deriving DecidableEq, Repr

/-- ComponentManager.createBackup: append a snapshot of the database schema,
the component files and the registry document (the migrations log is not
copied). -/
def createBackup (s : SysState) : SysState :=
  { s with backups := s.backups ++ [{ db := s.tables, files := s.files, registryDoc := s.registry }] }

/-- A transaction result (the resolved JS object, minus message text). -/
structure ModResult where
  success : Bool
  reason : Option String := none
  component : Option String := none
  field : Option String := none
  undoType : Option String := none
deriving DecidableEq, Repr

/-- addMetricTracker: backup, derive identifiers, `addField`, generate the
component (the template only changes the generation prompt), save its body,
register it (the boolean result of `registerComponent` is not checked), report
success.  `already_exists` from `addField` returns early; a failed generation
or a failed migration throws, with no restore. -/
def addMetricTracker (s : SysState) (metricName componentType : String)
    (oracleText : Option String) (tMig tReg : Nat) :
    Except String ModResult × SysState :=
  let s1 := createBackup s
  let fieldName := metricToFieldName metricName
  let componentName := metricToComponentName metricName
  let dataType := inferDataType metricName
  match addField s1.tables s1.migLog "metrics" fieldName dataType none tMig with
  | .error e => (.error e, s1)
  | .ok (.alreadyExists, tb, lg) =>
    (.ok { success := false, reason := some "already_exists" },
     { s1 with tables := tb, migLog := lg })
  | .ok (.sqlError e, tb, lg) =>
    (.error ("Database migration failed: " ++ e), { s1 with tables := tb, migLog := lg })
  | .ok (.added _ _, tb, lg) =>
    let s2 := { s1 with tables := tb, migLog := lg }
    match generateComponent oracleText with
    | none => (.error "Component generation failed", s2)
    | some code =>
      let saved := saveComponent s2.files componentName code
      let s3 := { s2 with files := saved.2 }
      let reg' := (registerComponent s3.registry
        { name := componentName, ctype := componentType, field := some fieldName,
          description := metricName, path := saved.1, location := "dashboard",
          active := true } tReg).2
      let s4 := { s3 with registry := reg' }
      (.ok { success := true, component := some componentName, field := some fieldName }, s4)

/-- removeMetricTracker: backup, find the component owning the derived field,
soft-delete the field (the result of `removeField` is not checked), delete the
component, report success. -/
def removeMetricTracker (s : SysState) (metricName : String) (tMig tUnreg : Nat) :
    Except String ModResult × SysState :=
  let s1 := createBackup s
  let fieldName := metricToFieldName metricName
  match s1.registry.components.find? (fun c => c.field == some fieldName) with
  | none => (.ok { success := false, reason := some "not_found" }, s1)
  | some comp =>
    match removeField s1.tables s1.migLog "metrics" fieldName true tMig with
    | .error e => (.error e, s1)
    | .ok (_, tb, lg) =>
      let s2 := { s1 with tables := tb, migLog := lg }
      let del := deleteComponent s2.files s2.registry comp.name tUnreg
      (.ok { success := true, component := some comp.name, field := some fieldName },
       { s2 with files := del.2.1, registry := del.2.2 })

/-- addChart: backup, generate a chart component, save and register it; no
schema change.  A failed generation throws, with no restore. -/
def addChart (s : SysState) (chartDescription : String) (oracleText : Option String)
    (tReg : Nat) : Except String ModResult × SysState :=
  let s1 := createBackup s
  let componentName := metricToComponentName (chartDescription ++ " Chart")
  match generateComponent oracleText with
  | none => (.error "Chart generation failed", s1)
  | some code =>
    let saved := saveComponent s1.files componentName code
    let s2 := { s1 with files := saved.2 }
    let reg' := (registerComponent s2.registry
      { name := componentName, ctype := "chart", field := none,
        description := chartDescription, path := saved.1, location := "analytics",
        active := true } tReg).2
    (.ok { success := true, component := some componentName }, { s2 with registry := reg' })

/-- undoLastModification: no backup is taken.  Compare the timestamp of the
last migration with the timestamp of the last registered component; reverse
only the newer of the two (delete the component, or soft-delete the field of
an `add_field` migration).  In the source, reaching the migration branch with
no migration present dereferences `undefined` and throws. -/
def undoLastModification (s : SysState) (tMig tUnreg : Nat) :
    Except String ModResult × SysState :=
  if s.migLog.migrations.isEmpty && s.registry.components.isEmpty then
    (.ok { success := false, reason := some "nothing_to_undo" }, s)
  else
    let migrationTime := ((s.migLog.migrations.getLast?).map (fun m => m.executedAt)).getD 0
    let componentTime := ((s.registry.components.getLast?).map (fun c => c.registeredAt)).getD 0
    if componentTime > migrationTime then
      match s.registry.components.getLast? with
      | some c =>
        let del := deleteComponent s.files s.registry c.name tUnreg
        (.ok { success := true, undoType := some "component" },
         { s with files := del.2.1, registry := del.2.2 })
      | none =>
        -- unreachable: componentTime > migrationTime forces a last component
        (.ok { success := false, reason := some "undo_failed" }, s)
    else
      match s.migLog.migrations.getLast? with
      | some m =>
        if m.mtype == "add_field" then
          match removeField s.tables s.migLog m.table m.field true tMig with
          | .error e => (.error e, s)
          | .ok (_, tb, lg) =>
            (.ok { success := true, undoType := some "migration" },
             { s with tables := tb, migLog := lg })
        else
          (.ok { success := false, reason := some "undo_failed" }, s)
      | none =>
        (.error "TypeError: cannot read properties of undefined", s)

/-! ## Intent Detector (ModificationDetector.detectModificationRequest)

Each trigger regex is embedded as a matcher over the message with JS `match`
semantics: scan start positions left to right; at a position the pattern
components run in sequence, an optional group is tried with its body first and
dropped on failure, a lazy capture takes the shortest text whose continuation
matches, a greedy trailing capture takes everything to the end of the line.
All literal comparisons are case-insensitive (`i` flag); `.` does not match a
newline. -/

/-- A capture character (regex `.`): anything but a line terminator. -/
def isDotChar (c : Char) : Bool :=
  !(c == '\n' || c == '\r')

/-- Case-insensitive literal: consume `pat`, return the rest. -/
def litCI : List Char → List Char → Option (List Char)
  | [], s => some s
  | _ :: _, [] => none
  | p :: ps, c :: cs => if p.toLower == c.toLower then litCI ps cs else none

/-- Regex `\s+`: at least one whitespace character, consumed greedily. -/
def ws1 : List Char → Option (List Char)
  | [] => none
  | c :: cs => if c.isWhitespace then some (cs.dropWhile Char.isWhitespace) else none

/-- An optional group `(?:f)?` followed by continuation `k`: try the group
first, fall back to skipping it. -/
def optPart {α : Type} (f : List Char → Option (List Char)) (k : List Char → Option α)
    (s : List Char) : Option α :=
  match f s with
  | some s' =>
    match k s' with
    | some a => some a
    | none => k s
  | none => k s

/-- A greedy trailing capture `(.+)`: all remaining dot-characters, nonempty. -/
def capRest (s : List Char) : Option String :=
  let t := s.takeWhile isDotChar
  if t.isEmpty then none else some (String.mk t)

/-- Helper for `(.+?)` before continuation `k`: extend the capture one
character at a time, checking `k` at every boundary. -/
def lazyGo {α : Type} (k : List Char → Option α) : List Char → List Char → Option (String × α)
  | acc, rest =>
    match k rest with
    | some a => some (String.mk acc.reverse, a)
    | none =>
      match rest with
      | [] => none
      | d :: rest' => if isDotChar d then lazyGo k (d :: acc) rest' else none

/-- A lazy capture `(.+?)` followed by continuation `k`: shortest nonempty
capture whose continuation matches. -/
def lazyCapTo {α : Type} (k : List Char → Option α) : List Char → Option (String × α)
  | [] => none
  | c :: rest => if isDotChar c then lazyGo k [c] rest else none

/-- Run a position matcher at every start position, leftmost first. -/
def searchAt {α : Type} (f : List Char → Option α) : List Char → Option α
  | [] => f []
  | c :: r =>
    match f (c :: r) with
    | some a => some a
    | none => searchAt f r

/-- One alternative out of several literals, in source order. -/
def altLits : List String → List Char → Option (List Char)
  | [], _ => none
  | p :: ps, s =>
    match litCI p.toList s with
    | some r => some r
    | none => altLits ps s

/-- The apostrophe character (U+0027). -/
def apoChar : Char := Char.ofNat 39

/-- The literal `don` + apostrophe + `t` of the removal trigger. -/
def dontApo : String := String.mk ['d', 'o', 'n', apoChar, 't']

/-- Trigger `/add\s+(?:a\s+)?(.+?)\s+(?:tracker|tracking)/i` -/
def matchAddTracker (s : List Char) : Option String :=
  searchAt (fun t => do
    let t ← litCI "add".toList t
    let t ← ws1 t
    optPart (fun u => do let u ← litCI "a".toList u; ws1 u)
      (fun u =>
        (lazyCapTo (fun v => do
          let v ← ws1 v
          altLits ["tracker", "tracking"] v) u).map (fun p => p.1)) t) s

/-- Trigger `/track\s+(?:my\s+)?(.+)/i` -/
def matchTrackGeneric (s : List Char) : Option String :=
  searchAt (fun t => do
    let t ← litCI "track".toList t
    let t ← ws1 t
    optPart (fun u => do let u ← litCI "my".toList u; ws1 u) capRest t) s

/-- Trigger `/(?:can you|could you)\s+track\s+(.+)/i` -/
def matchCanYouTrack (s : List Char) : Option String :=
  searchAt (fun t => do
    let t ← altLits ["can you", "could you"] t
    let t ← ws1 t
    let t ← litCI "track".toList t
    let t ← ws1 t
    capRest t) s

/-- Trigger `/remove\s+(?:the\s+)?(.+?)\s+(?:tracker|tracking|metric)/i` -/
def matchRemoveTracker (s : List Char) : Option String :=
  searchAt (fun t => do
    let t ← litCI "remove".toList t
    let t ← ws1 t
    optPart (fun u => do let u ← litCI "the".toList u; ws1 u)
      (fun u =>
        (lazyCapTo (fun v => do
          let v ← ws1 v
          altLits ["tracker", "tracking", "metric"] v) u).map (fun p => p.1)) t) s

/-- Trigger `/delete\s+(?:the\s+)?(.+?)\s+(?:tracker|tracking|metric)/i` -/
def matchDeleteTracker (s : List Char) : Option String :=
  searchAt (fun t => do
    let t ← litCI "delete".toList t
    let t ← ws1 t
    optPart (fun u => do let u ← litCI "the".toList u; ws1 u)
      (fun u =>
        (lazyCapTo (fun v => do
          let v ← ws1 v
          altLits ["tracker", "tracking", "metric"] v) u).map (fun p => p.1)) t) s

/-- Trigger `/stop tracking\s+(.+)/i` (the inner space is a literal). -/
def matchStopTracking (s : List Char) : Option String :=
  searchAt (fun t => do
    let t ← litCI "stop tracking".toList t
    let t ← ws1 t
    capRest t) s

/-- The removal trigger `i (dont-with-apostrophe|dont) (use|need|track)\s+(.+)`
(the two inner spaces are literals). -/
def matchDontUse (s : List Char) : Option String :=
  searchAt (fun t => do
    let t ← litCI "i ".toList t
    let t ← altLits [dontApo, "dont"] t
    let t ← litCI " ".toList t
    let t ← altLits ["use", "need", "track"] t
    let t ← ws1 t
    capRest t) s

/-- Trigger `/add\s+(?:a\s+)?chart\s+(?:for|showing|of)\s+(.+)/i` -/
def matchAddChart (s : List Char) : Option String :=
  searchAt (fun t => do
    let t ← litCI "add".toList t
    let t ← ws1 t
    optPart (fun u => do let u ← litCI "a".toList u; ws1 u)
      (fun u => do
        let u ← litCI "chart".toList u
        let u ← ws1 u
        let u ← altLits ["for", "showing", "of"] u
        let u ← ws1 u
        capRest u) t) s

/-- Trigger `/(?:create|make|show me)\s+(?:a\s+)?chart\s+(?:for|of|showing)\s+(.+)/i` -/
def matchMakeChart (s : List Char) : Option String :=
  searchAt (fun t => do
    let t ← altLits ["create", "make", "show me"] t
    let t ← ws1 t
    optPart (fun u => do let u ← litCI "a".toList u; ws1 u)
      (fun u => do
        let u ← litCI "chart".toList u
        let u ← ws1 u
        let u ← altLits ["for", "of", "showing"] u
        let u ← ws1 u
        capRest u) t) s

/-- Trigger `/move\s+(.+?)\s+to\s+(?:the\s+)?(.+)/i` -/
def matchMove (s : List Char) : Option (String × String) :=
  searchAt (fun t => do
    let t ← litCI "move".toList t
    let t ← ws1 t
    lazyCapTo (fun v => do
      let v ← ws1 v
      let v ← litCI "to".toList v
      let v ← ws1 v
      optPart (fun u => do let u ← litCI "the".toList u; ws1 u) capRest v) t) s

/-- Trigger `/undo\s+(?:that|the last change|last modification)/i` -/
def matchUndo (s : List Char) : Option Unit :=
  searchAt (fun t => do
    let t ← litCI "undo".toList t
    let t ← ws1 t
    let _ ← altLits ["that", "the last change", "last modification"] t
    pure ()) s

/-- Trigger `/rollback|revert|go back/i` -/
def matchRollback (s : List Char) : Option Unit :=
  searchAt (fun t => (altLits ["rollback", "revert", "go back"] t).map (fun _ => ())) s

/-- The action and extracted details of the first trigger that matches. -/
inductive TriggerHit where
  | metricHit (action : String) (metric : String)
  | chartHit (chartDescription : String)
  | layoutHit (element location : String)
  | undoHit
deriving DecidableEq, Repr

/-- The trigger table, in source order; first match wins.  The extractors
`.trim()` their captures. -/
def runTriggers (s : List Char) : Option TriggerHit :=
  ((matchAddTracker s).map (fun m => TriggerHit.metricHit "add_metric" (jsTrim m))) <|>
  ((matchTrackGeneric s).map (fun m => TriggerHit.metricHit "add_metric" (jsTrim m))) <|>
  ((matchCanYouTrack s).map (fun m => TriggerHit.metricHit "add_metric" (jsTrim m))) <|>
  ((matchRemoveTracker s).map (fun m => TriggerHit.metricHit "remove_metric" (jsTrim m))) <|>
  ((matchDeleteTracker s).map (fun m => TriggerHit.metricHit "remove_metric" (jsTrim m))) <|>
  ((matchStopTracking s).map (fun m => TriggerHit.metricHit "remove_metric" (jsTrim m))) <|>
  ((matchDontUse s).map (fun m => TriggerHit.metricHit "remove_metric" (jsTrim m))) <|>
  ((matchAddChart s).map (fun m => TriggerHit.chartHit (jsTrim m))) <|>
  ((matchMakeChart s).map (fun m => TriggerHit.chartHit (jsTrim m))) <|>
  ((matchMove s).map (fun p => TriggerHit.layoutHit (jsTrim p.1) (jsTrim p.2))) <|>
  ((matchUndo s).map (fun _ => TriggerHit.undoHit)) <|>
  ((matchRollback s).map (fun _ => TriggerHit.undoHit))

/-- The detector result object. -/
structure DetectionResult where
  detected : Bool
  action : Option String := none
  componentType : Option String := none
  metric : Option String := none
  chartDescription : Option String := none
  element : Option String := none
  location : Option String := none
  suggestedTemplate : Option String := none
deriving DecidableEq, Repr

/-- Component type and suggested template from the extracted metric name. -/
def componentTypeFor (metric : Option String) : String × Option String :=
  match metric with
  | none => ("metric_input", none)
  | some m =>
    let lower := String.mk (m.toList.map Char.toLower)
    if strContains lower "mood" then ("emoji_select", some "mood_tracker")
    else if strContains lower "stress" then ("metric_input", some "stress_level")
    else if strContains lower "focus" || strContains lower "concentration" then
      ("metric_input", some "focus_score")
    else if strContains lower "water" then ("metric_input", some "water_intake")
    else ("metric_input", none)

/-- ModificationDetector.detectModificationRequest. -/
def detectModificationRequest (userMessage : String) : DetectionResult :=
  match runTriggers userMessage.toList with
  | none => { detected := false }
  | some (.metricHit act m) =>
    let ct := componentTypeFor (some m)
    { detected := true, action := some act, componentType := some ct.1,
      metric := some m, suggestedTemplate := ct.2 }
  | some (.chartHit d) =>
    { detected := true, action := some "add_chart", componentType := some "metric_input",
      chartDescription := some d }
  | some (.layoutHit e l) =>
    { detected := true, action := some "modify_layout", componentType := some "metric_input",
      element := some e, location := some l }
  | some .undoHit =>
    { detected := true, action := some "undo", componentType := some "metric_input" }

/-! ## Concrete scenario states -/

/-- A fresh deployment: a `metrics` table with a `date` column, empty
migrations log, empty registry, no component files, no backups. -/
def baseState : SysState :=
  ⟨[("metrics", ["date"])], ⟨[], none⟩, ⟨[], none⟩, [], []⟩

/-- An oracle response that passes the generation gate. -/
def waterBody : String := "export default function Water()"

/-- The `addMetric("water")` transaction on the fresh deployment, with the
migration stamped at 10 and the registration at 11. -/
def waterRun : Except String ModResult × SysState :=
  addMetricTracker baseState "water" "metric_input" (some waterBody) 10 11

/-- The state after the successful `addMetric("water")` transaction. -/
def waterState : SysState := waterRun.2

/-- The `addMetric("mood")` transaction on the fresh deployment with a failing oracle. -/
def moodFailRun : Except String ModResult × SysState :=
  addMetricTracker baseState "mood" "emoji_select" none 10 11

/-- A generated body that starts with the required export shape but contains a
dynamic-evaluation call. -/
def evalBody : String := "export default function Evil() \x7B eval(1) \x7D"

/-- The `addMetric("evil")` transaction on the fresh deployment where the oracle returns
`evalBody`. -/
def evilRun : Except String ModResult × SysState :=
  addMetricTracker baseState "evil" "metric_input" (some evalBody) 10 11

/-- A state whose registry already holds a component named `Water` but whose
schema has no `water` column (set up so the Registering step hits a duplicate
name). -/
def preRegisteredState : SysState :=
  ⟨[("metrics", ["date"])], ⟨[], none⟩,
   ⟨[{ name := "Water", ctype := "metric_input", field := some "water",
       description := "water", path := componentFilePath "Water",
       location := "dashboard", active := true, registeredAt := 5 }], some 5⟩,
   [], []⟩

/-- The `addMetric("water")` transaction against `preRegisteredState`. -/
def dupRegisterRun : Except String ModResult × SysState :=
  addMetricTracker preRegisteredState "water" "metric_input" (some waterBody) 10 11

/-- Schema after adding `water` to the fresh `metrics` table. -/
def metricsWithWater : Tables := [("metrics", ["date", "water"])]

/-- Migrations log after the `water` AddField at time 1. -/
def logWaterAdded : MigLog :=
  ⟨[addFieldMigration "metrics" "water" "INTEGER" none 1], some "add_metrics_water_1"⟩

/-- Migrations log after additionally soft-deleting `water` at time 2. -/
def logWaterRemoved : MigLog :=
  ⟨[addFieldMigration "metrics" "water" "INTEGER" none 1,
    softDeleteMigration "metrics" "water" 2],
   some "remove_metrics_water_2"⟩

/-! ## Theorems -/

/-- C1 (code bug).  When component generation fails after `addField` succeeded
in `addMetricTracker`, the transaction throws and performs no restore: the
backup holds the pre-transaction snapshot, yet the post-transaction schema and
migration log differ from it.  When the Registering step hits a duplicate
name, the `false` result is ignored and the transaction even reports success,
leaving the schema mutated and the registry untouched.  In both cases the
combined schema + registry state is left divergent from the snapshot,
contradicting the documented automatic-rollback behaviour. -/
theorem cherry_c1_no_restore_after_failure :
    moodFailRun.1 = Except.error "Component generation failed"
    ∧ moodFailRun.2.backups =
        [{ db := baseState.tables, files := baseState.files, registryDoc := baseState.registry }]
    ∧ moodFailRun.2.tables = [("metrics", ["date", "mood"])]
    ∧ moodFailRun.2.tables ≠ baseState.tables
    ∧ moodFailRun.2.migLog ≠ baseState.migLog
    ∧ dupRegisterRun.1 =
        Except.ok { success := true, component := some "Water", field := some "water" }
    ∧ dupRegisterRun.2.registry = preRegisteredState.registry
    ∧ dupRegisterRun.2.tables ≠ preRegisteredState.tables :=
  ⟨by decide, by decide, by decide, by decide, by decide, by decide, by decide, by decide⟩

/-- C2 (counterexample).  `removeField(metrics, water, soft)` then a
subsequent `addField(metrics, water, INTEGER)`: the re-add reports
`already_exists` (the column is physically present), appends nothing, and
`water` does not reappear in `getActiveFields` — exclusion is by the presence
of any soft-delete record, not last-write-wins. -/
theorem cherry_c2_readd_does_not_reappear :
    addField [("metrics", ["date"])] ⟨[], none⟩ "metrics" "water" "INTEGER" none 1 =
      .ok (.added "water" "metrics", metricsWithWater, logWaterAdded)
    ∧ removeField metricsWithWater logWaterAdded "metrics" "water" true 2 =
      .ok (.softDeleted "water" "metrics", metricsWithWater, logWaterRemoved)
    ∧ getActiveFields metricsWithWater logWaterRemoved "metrics" = ["date"]
    ∧ addField metricsWithWater logWaterRemoved "metrics" "water" "INTEGER" none 3 =
      .ok (.alreadyExists, metricsWithWater, logWaterRemoved)
    ∧ "water" ∉ getActiveFields metricsWithWater logWaterRemoved "metrics" :=
  ⟨by decide, by decide, by decide, by decide, by decide⟩

/-- C3 (counterexample).  `metricToFieldName` does not avoid reserved words:
on the printable subject `select` it returns `select`, a member of the
reserved-word set. -/
theorem cherry_c3_reserved_word_output :
    metricToFieldName "select" = "select"
    ∧ reservedWords.contains (metricToFieldName "select") = true := by
  decide

/-- C4 (code bug).  A generated body that starts with the required export
shape but contains a dynamic-evaluation call passes the generation gate, and
`addMetricTracker` saves it to storage and registers it — the gate checks only
the leading `export default function`. -/
theorem cherry_c4_eval_body_accepted :
    strContains evalBody "eval(" = true
    ∧ generateComponent (some evalBody) = some evalBody
    ∧ evilRun.1 = Except.ok { success := true, component := some "Evil", field := some "evil" }
    ∧ evilRun.2.files = [(componentFilePath "Evil", evalBody)]
    ∧ evilRun.2.registry.components.map (fun c => c.name) = ["Evil"] := by
  decide

/-- C5 (code bug).  After the successful `addMetric("water")` transaction,
undo deletes only the `Water` component (the newer record): no soft-delete is
appended and `water` is still listed by `getActiveFields`. -/
theorem cherry_c5_undo_reverses_only_component :
    waterRun.1 = Except.ok { success := true, component := some "Water", field := some "water" }
    ∧ (undoLastModification waterState 20 21).1 =
        Except.ok { success := true, undoType := some "component" }
    ∧ (undoLastModification waterState 20 21).2.registry.components = []
    ∧ (undoLastModification waterState 20 21).2.migLog = waterState.migLog
    ∧ "water" ∈ getActiveFields (undoLastModification waterState 20 21).2.tables
        (undoLastModification waterState 20 21).2.migLog "metrics" := by
  decide

/-- C6 (counterexample).  The undo transaction mutates the registry without
taking any snapshot first: the backups list is unchanged by
`undoLastModification` while the registry document changes. -/
theorem cherry_c6_undo_takes_no_snapshot :
    (undoLastModification waterState 20 21).2.backups = waterState.backups
    ∧ (undoLastModification waterState 20 21).2.registry ≠ waterState.registry := by
  decide

/-- C9 (code bug).  The removal phrasing `i dont track water` matches the
tracker-removal rule, but the generic `track` rule precedes it in the trigger
table and first-match-wins returns `add_metric`, not `remove_metric`. -/
theorem cherry_c9_dont_track_is_add_metric :
    detectModificationRequest "i dont track water" =
      { detected := true, action := some "add_metric", componentType := some "metric_input",
        metric := some "water", suggestedTemplate := some "water_intake" }
    ∧ matchDontUse "i dont track water".toList = some "water" := by
  decide

/-! ## Supporting lemmas -/

/-- Every character `collapseRuns` emits is a lower-case alphanumeric or an
underscore. -/
theorem collapseRuns_chars (l : List Char) :
    ∀ c ∈ collapseRuns l, isFieldChar c = true ∨ c = '_' := by
  induction l with
  | nil => intro c hc; simp [collapseRuns] at hc
  | cons a rest ih =>
    intro c hc
    cases rest with
    | nil =>
      by_cases h : isFieldChar a
      · simp [collapseRuns, h] at hc
        exact hc ▸ Or.inl h
      · simp [collapseRuns, h] at hc
        exact Or.inr hc
    | cons b rest2 =>
      by_cases h1 : isFieldChar a
      · simp only [collapseRuns, if_pos h1, List.mem_cons] at hc
        rcases hc with rfl | hc
        · exact Or.inl h1
        · exact ih c hc
      · by_cases h2 : isFieldChar b
        · simp only [collapseRuns, if_neg h1, if_pos h2, List.mem_cons] at hc
          rcases hc with rfl | hc
          · exact Or.inr rfl
          · exact ih c hc
        · simp only [collapseRuns, if_neg h1, if_neg h2] at hc
          exact ih c hc

/-- The function `stripUnderscores` only removes characters. -/
theorem mem_of_mem_stripUnderscores {c : Char} {l : List Char}
    (h : c ∈ stripUnderscores l) : c ∈ l := by
  unfold stripUnderscores at h
  rw [List.mem_reverse] at h
  have h1 := (List.dropWhile_sublist _).subset h
  rw [List.mem_reverse] at h1
  exact (List.dropWhile_sublist _).subset h1

/-- C3 amended.  `metricToFieldName` output is at most 50 characters and every
character is a lower-case letter, a digit or an underscore.  (It does not
guarantee the full grammar: the output can be empty, can start with a digit
and can be a reserved word — those are only caught later by
`validateFieldName`.) -/
theorem cherry_c3_field_id_safety (s : String) :
    (metricToFieldName s).length ≤ 50
    ∧ ∀ c ∈ (metricToFieldName s).toList, isFieldChar c = true ∨ c = '_' := by
  constructor
  · have : (metricToFieldName s).length =
        ((stripUnderscores (collapseRuns (s.toList.map Char.toLower))).take 50).length := rfl
    rw [this, List.length_take]
    exact min_le_left _ _
  · intro c hc
    have hc' : c ∈ (stripUnderscores (collapseRuns (s.toList.map Char.toLower))).take 50 := hc
    have hmem := List.take_subset _ _ hc'
    exact collapseRuns_chars _ c (mem_of_mem_stripUnderscores hmem)

/-- C6 amended.  The add-metric, remove-metric and add-chart transactions
append a snapshot of the pre-transaction store content, component files and
registry document to the backups before any structural mutation (no later
step touches the backups); the undo transaction takes no snapshot at all. -/
theorem cherry_c6_snapshot_first_except_undo (s : SysState)
    (metricName componentType chartDescription : String) (oracleText : Option String)
    (t1 t2 : Nat) :
    (addMetricTracker s metricName componentType oracleText t1 t2).2.backups =
      s.backups ++ [{ db := s.tables, files := s.files, registryDoc := s.registry }]
    ∧ (removeMetricTracker s metricName t1 t2).2.backups =
      s.backups ++ [{ db := s.tables, files := s.files, registryDoc := s.registry }]
    ∧ (addChart s chartDescription oracleText t1).2.backups =
      s.backups ++ [{ db := s.tables, files := s.files, registryDoc := s.registry }]
    ∧ (undoLastModification s t1 t2).2.backups = s.backups := by
  refine ⟨?_, ?_, ?_, ?_⟩
  · unfold addMetricTracker createBackup
    dsimp only
    cases addField s.tables s.migLog "metrics" (metricToFieldName metricName)
        (inferDataType metricName) none t1 with
    | error e => rfl
    | ok r =>
      obtain ⟨out, tb, lg⟩ := r
      cases out with
      | added f t =>
        dsimp only
        cases generateComponent oracleText with
        | none => rfl
        | some code => rfl
      | alreadyExists => rfl
      | sqlError m => rfl
  · unfold removeMetricTracker createBackup
    dsimp only
    cases s.registry.components.find? (fun c => c.field == some (metricToFieldName metricName)) with
    | none => rfl
    | some comp =>
      dsimp only
      cases removeField s.tables s.migLog "metrics" (metricToFieldName metricName) true t1 with
      | error e => rfl
      | ok r => obtain ⟨out, tb, lg⟩ := r; rfl
  · unfold addChart createBackup
    dsimp only
    cases generateComponent oracleText with
    | none => rfl
    | some code => rfl
  · unfold undoLastModification
    dsimp only
    by_cases hB : (s.migLog.migrations.isEmpty && s.registry.components.isEmpty) = true
    · rw [if_pos hB]
    · rw [if_neg hB]
      by_cases hT : ((s.registry.components.getLast?.map (fun c => c.registeredAt)).getD 0 >
          (s.migLog.migrations.getLast?.map (fun m => m.executedAt)).getD 0)
      · rw [if_pos hT]
        cases s.registry.components.getLast? with
        | none => rfl
        | some c => rfl
      · rw [if_neg hT]
        cases s.migLog.migrations.getLast? with
        | none => rfl
        | some m =>
          dsimp only
          by_cases hM : (m.mtype == "add_field") = true
          · rw [if_pos hM]
            cases removeField s.tables s.migLog m.table m.field true t1 with
            | error e => rfl
            | ok r => obtain ⟨out, tb, lg⟩ := r; rfl
          · rw [if_neg hM]

/-- Looking up a table after `setTable` on that table yields the new columns,
provided the table was present. -/
theorem lookup_setTable {tables : Tables} {t : String} {cols0 : List String}
    (cols : List String) (h : List.lookup t tables = some cols0) :
    List.lookup t (setTable tables t cols) = some cols := by
  induction tables with
  | nil => simp [List.lookup] at h
  | cons q rest ih =>
    obtain ⟨k, v⟩ := q
    by_cases hk : k = t
    · subst hk
      simp only [setTable]
      rw [if_pos (beq_self_eq_true k)]
      simp [List.lookup]
    · have hbt : (t == k) = false := beq_eq_false_iff_ne.mpr (Ne.symm hk)
      have hbk : (k == t) = false := beq_eq_false_iff_ne.mpr hk
      simp only [List.lookup, hbt] at h
      simp only [setTable]
      rw [if_neg (by simp [hbk])]
      simp only [List.lookup, hbt]
      exact ih h

/-- After a successful `addField`, the field physically exists. -/
theorem fieldExists_after_add {tables : Tables} {t f : String} {cols0 : List String}
    (h : List.lookup t tables = some cols0) :
    fieldExists (setTable tables t (cols0 ++ [f])) t f = true := by
  unfold fieldExists
  rw [lookup_setTable _ h]
  simp

/-- C7.  A second `addField` with the same table/field after a successful one
returns the `already_exists` outcome (not a thrown error), leaves the schema
untouched and appends no new migration record. -/
theorem cherry_c7_addfield_idempotent
    (tables : Tables) (log : MigLog) (table field dataType : String)
    (d : Option String) (t1 t2 : Nat) (tb : Tables) (lg : MigLog)
    (h : addField tables log table field dataType d t1 = .ok (.added field table, tb, lg)) :
    addField tb lg table field dataType d t2 = .ok (.alreadyExists, tb, lg) := by
  unfold addField at h ⊢
  cases hv : validateFieldName field with
  | error e => rw [hv] at h; simp at h
  | ok u =>
    cases u
    rw [hv] at h
    dsimp only at h ⊢
    cases hd : validateDataType dataType with
    | error e => rw [hd] at h; simp at h
    | ok u2 =>
      cases u2
      rw [hd] at h
      dsimp only at h ⊢
      by_cases he : fieldExists tables table field = true
      · rw [if_pos he] at h
        exact absurd h (by simp)
      · rw [if_neg he] at h
        cases hl : List.lookup table tables with
        | none => rw [hl] at h; simp at h
        | some cols =>
          rw [hl] at h
          dsimp only at h
          simp only [Except.ok.injEq, Prod.mk.injEq] at h
          obtain ⟨-, htb, hlg⟩ := h
          subst htb
          subst hlg
          rw [if_pos (fieldExists_after_add hl)]

/-- C7 witness: a concrete first `addField` success followed by a second call
that reports `already_exists` and changes nothing. -/
theorem cherry_c7_addfield_idempotent_witness :
    addField metricsWithWater logWaterAdded "metrics" "water" "INTEGER" none 2 =
      .ok (.alreadyExists, metricsWithWater, logWaterAdded) :=
  cherry_c7_addfield_idempotent [("metrics", ["date"])] ⟨[], none⟩ "metrics" "water"
    "INTEGER" none 1 2 metricsWithWater logWaterAdded (by decide)

/-- C8.  `removeField` with `softDelete = false` never alters the physical
schema or the migration log on any path, and when the name validates and the
field exists it reports the `hard_delete_not_supported` outcome. -/
theorem cherry_c8_hard_delete_rejected
    (tables : Tables) (log : MigLog) (table field : String) (now : Nat) :
    (∀ out tb lg, removeField tables log table field false now = .ok (out, tb, lg) →
      tb = tables ∧ lg = log)
    ∧ (validateFieldName field = .ok () → fieldExists tables table field = true →
        removeField tables log table field false now =
          .ok (.hardDeleteNotSupported, tables, log)) := by
  constructor
  · intro out tb lg h
    unfold removeField at h
    cases hv : validateFieldName field with
    | error e => rw [hv] at h; simp at h
    | ok u =>
      cases u
      rw [hv] at h
      dsimp only at h
      by_cases he : fieldExists tables table field = true
      · rw [he] at h
        simp only [Bool.not_true, Bool.false_eq_true, if_false, Except.ok.injEq,
          Prod.mk.injEq] at h
        exact ⟨h.2.1.symm, h.2.2.symm⟩
      · rw [Bool.not_eq_true] at he
        rw [he] at h
        simp only [Bool.not_false, if_true, Except.ok.injEq, Prod.mk.injEq] at h
        exact ⟨h.2.1.symm, h.2.2.symm⟩
  · intro hv he
    unfold removeField
    rw [hv]
    dsimp only
    rw [he]
    simp

/-- C8 witness: hard-deleting the existing `water` field is rejected with the
typed outcome and changes nothing. -/
theorem cherry_c8_hard_delete_rejected_witness :
    removeField metricsWithWater ⟨[], none⟩ "metrics" "water" false 5 =
      .ok (.hardDeleteNotSupported, metricsWithWater, ⟨[], none⟩) :=
  (cherry_c8_hard_delete_rejected metricsWithWater ⟨[], none⟩ "metrics" "water" 5).2
    (by decide) (by decide)

/-- C2 amended.  After a successful soft delete, the field is excluded from
`getActiveFields`, and a subsequent `addField` of the same field returns
`already_exists` without changing the schema or the log — so the field stays
excluded: the active-field view excludes every field with any soft-delete
record (simple exclusion), not last-write-wins. -/
theorem cherry_c2_soft_delete_simple_exclusion
    (tables : Tables) (log : MigLog) (table field dataType : String)
    (d : Option String) (t1 t2 : Nat) (lg : MigLog)
    (h : removeField tables log table field true t1 = .ok (.softDeleted field table, tables, lg))
    (hd : validateDataType dataType = .ok ()) :
    field ∉ getActiveFields tables lg table
    ∧ addField tables lg table field dataType d t2 = .ok (.alreadyExists, tables, lg) := by
  unfold removeField at h
  cases hv : validateFieldName field with
  | error e => rw [hv] at h; simp at h
  | ok u =>
    cases u
    rw [hv] at h
    dsimp only at h
    by_cases he : fieldExists tables table field = true
    · rw [he] at h
      simp only [Bool.not_true, Bool.false_eq_true, if_false, if_true, Except.ok.injEq,
        Prod.mk.injEq] at h
      obtain ⟨-, -, hlg⟩ := h
      subst hlg
      constructor
      · intro hmem
        simp only [getActiveFields] at hmem
        cases hl : List.lookup table tables with
        | none => rw [hl] at hmem; simp at hmem
        | some cols =>
          rw [hl] at hmem
          dsimp only at hmem
          rw [List.mem_filter] at hmem
          have hmemf : field ∈
              (((logMigration log (softDeleteMigration table field t1)).migrations.filter
                (fun m => m.mtype == "soft_delete_field" && m.table == table)).map
                (fun m => m.field)) := by
            rw [List.mem_map]
            refine ⟨softDeleteMigration table field t1, ?_, rfl⟩
            rw [List.mem_filter]
            refine ⟨by simp [logMigration], by simp [softDeleteMigration]⟩
          have hcontains :
              ((((logMigration log (softDeleteMigration table field t1)).migrations.filter
                (fun m => m.mtype == "soft_delete_field" && m.table == table)).map
                (fun m => m.field)).contains field) = true :=
            List.elem_iff.mpr hmemf
          rw [hcontains] at hmem
          simp at hmem
      · unfold addField
        rw [hv]
        dsimp only
        rw [hd]
        dsimp only
        rw [he]
        simp
    · rw [Bool.not_eq_true] at he
      rw [he] at h
      simp at h

/-- C2 amended witness: the concrete `water` scenario, applying the amended
theorem at the state after the soft delete. -/
theorem cherry_c2_soft_delete_simple_exclusion_witness :
    "water" ∉ getActiveFields metricsWithWater logWaterRemoved "metrics"
    ∧ addField metricsWithWater logWaterRemoved "metrics" "water" "INTEGER" none 3 =
      .ok (.alreadyExists, metricsWithWater, logWaterRemoved) :=
  cherry_c2_soft_delete_simple_exclusion metricsWithWater logWaterAdded "metrics" "water"
    "INTEGER" none 2 3 logWaterRemoved (by decide) (by decide)

/-- The registry name view. -/
def registryNames (reg : Registry) : List String :=
  reg.components.map (fun c => c.name)

/-- C10.  Registering an already-present name is a `false` no-op that leaves
the registry document (including `last_modified`) unchanged, and register,
unregister and delete all preserve uniqueness of component names. -/
theorem cherry_c10_registry_unique_names
    (reg : Registry) (files : FileStore) (info : ComponentInfo) (nm : String) (now : Nat) :
    ((reg.components.any (fun c => c.name == info.name)) = true →
      registerComponent reg info now = (false, reg))
    ∧ ((registryNames reg).Nodup → (registryNames (registerComponent reg info now).2).Nodup)
    ∧ ((registryNames reg).Nodup → (registryNames (unregisterComponent reg nm now).2).Nodup)
    ∧ ((registryNames reg).Nodup →
        (registryNames (deleteComponent files reg nm now).2.2).Nodup) := by
  refine ⟨?_, ?_, ?_, ?_⟩
  · intro hany
    unfold registerComponent
    cases hf : reg.components.find? (fun c => c.name == info.name) with
    | some c => rfl
    | none =>
      exfalso
      rw [List.find?_eq_none] at hf
      rw [List.any_eq_true] at hany
      obtain ⟨c, hc, hcn⟩ := hany
      exact hf c hc hcn
  · intro hnd
    unfold registerComponent
    cases hf : reg.components.find? (fun c => c.name == info.name) with
    | some c => exact hnd
    | none =>
      dsimp only
      unfold registryNames at hnd ⊢
      simp only [List.map_append, List.map_cons, List.map_nil]
      rw [List.nodup_append]
      refine ⟨hnd, List.nodup_singleton _, ?_⟩
      intro a ha hb
      rw [List.mem_singleton] at hb
      subst hb
      rw [List.find?_eq_none] at hf
      rw [List.mem_map] at ha
      obtain ⟨c, hc, hcn⟩ := ha
      exact hf c hc (by rw [hcn]; exact beq_self_eq_true _)
  · intro hnd
    unfold unregisterComponent
    cases hi : reg.components.findIdx? (fun c => c.name == nm) with
    | none => exact hnd
    | some i =>
      dsimp only
      unfold registryNames at hnd ⊢
      exact List.Nodup.sublist ((List.eraseIdx_sublist _ _).map _) hnd
  · intro hnd
    unfold deleteComponent
    by_cases hf : (files.any (fun p => p.1 == componentFilePath nm)) = true
    · rw [if_pos hf]
      dsimp only
      unfold unregisterComponent
      cases hi : reg.components.findIdx? (fun c => c.name == nm) with
      | none => exact hnd
      | some i =>
        dsimp only
        unfold registryNames at hnd ⊢
        exact List.Nodup.sublist ((List.eraseIdx_sublist _ _).map _) hnd
    · rw [if_neg hf]
      exact hnd

/-- A registry already holding a `Water` component. -/
def dupRegistry : Registry :=
  ⟨[{ name := "Water", ctype := "metric_input", field := some "water",
      description := "water", path := componentFilePath "Water",
      location := "dashboard", active := true, registeredAt := 11 }], some 11⟩

/-- A registration request reusing the `Water` name. -/
def dupInfo : ComponentInfo :=
  ⟨"Water", "metric_input", some "water", "water intake", componentFilePath "Water",
   "dashboard", true⟩

/-- C10 witness: a duplicate registration at a concrete registry is a `false`
no-op. -/
theorem cherry_c10_registry_unique_names_witness :
    registerComponent dupRegistry dupInfo 42 = (false, dupRegistry) :=
  (cherry_c10_registry_unique_names dupRegistry [] dupInfo "Water" 42).1 (by decide)

end Cherry

